import Mathlib

/-!
Shallow embedding of the product-monitor repository
(src/product_monitor.py and src/productmonitor_telegram.py).

Python strings are modelled as Lean `String` (a structure over `List Char`);
Python `str.lower`, `str.strip`, `str.split`, the `in` substring test and
`str.startswith` are embedded as executable functions below.  Python dicts
are modelled as insertion-ordered association lists with the assignment
semantics of `d[k] = v` (overwrite in place if the key exists, append
otherwise).  Code that can raise is modelled in `Except`.
-/

namespace ProductMonitor

/-- Characters that are awkward to write literally, by code point. -/
def squote : Char := Char.ofNat 39

def dquote : Char := Char.ofNat 34

def bslash : Char := Char.ofNat 92

def lbrace : Char := Char.ofNat 123

def rbrace : Char := Char.ofNat 125

def colonChar : Char := Char.ofNat 58

def commaChar : Char := Char.ofNat 44

def nlChar : Char := Char.ofNat 10

/-- Python `str.strip()` on the character list: drop whitespace from both ends. -/
def stripChars (cs : List Char) : List Char :=
  ((cs.dropWhile Char.isWhitespace).reverse.dropWhile Char.isWhitespace).reverse

/-- Python `str.strip()`. -/
def pyStrip (s : String) : String := ⟨stripChars s.data⟩

/-- Python `str.lower()` (per-character lowercasing). -/
def pyLower (s : String) : String := ⟨s.data.map Char.toLower⟩

/-- Python `sub in s` substring membership on character lists. -/
def containsSub (hay pat : List Char) : Bool :=
  match hay with
  | [] => pat.isEmpty
  | _ :: rest => pat.isPrefixOf hay || containsSub rest pat

/-- Python `sub in s` for strings. -/
def strContains (hay pat : String) : Bool := containsSub hay.data pat.data

/-- Python `s.split(sep)[0]` for a non-empty separator: the characters that
precede the first occurrence of `sep` (the whole list when `sep` is absent). -/
def takeBeforeSep (sep : List Char) : List Char → List Char
  | [] => []
  | c :: rest => if sep.isPrefixOf (c :: rest) then [] else c :: takeBeforeSep sep rest

/-- Python truthiness of a string: non-empty. -/
def truthy (s : String) : Bool := !s.data.isEmpty

/-- Python `s.split(sep)` where `sep` is the single-quote character,
as used by `onclick.split("'")` in both scripts. -/
def splitQuote : List Char → List (List Char)
  | [] => [[]]
  | c :: rest =>
    match splitQuote rest with
    | [] => [[]]
    | h :: t => if c = squote then [] :: h :: t else (c :: h) :: t

/-- `clean_url` from product_monitor.py: `url.split(" - ")[0].strip()`. -/
def clean_url (url : String) : String :=
  pyStrip ⟨takeBeforeSep " - ".data url.data⟩

/-- `detect_pack_type` from product_monitor.py. -/
def detect_pack_type (url : String) : String :=
  if strContains url "/mini-gt-blister-pack/" then "Mini GT Blister Pack"
  else "Mini GT Box Pack"

/-- `normalize_key` from product_monitor.py:
`f"{pack_type}::{name.lower().strip()}"`. -/
def normalize_key (name pack_type : String) : String :=
  pack_type ++ "::" ++ pyStrip (pyLower name)

/-- `normalize_key` from productmonitor_telegram.py: `url.strip().lower()`
(the `name` argument is ignored by the source). -/
def normalize_key_tg (_name url : String) : String :=
  pyLower (pyStrip url)

/-! ## Data model: product records and snapshots (Python dicts) -/

/-- One product record, the value stored under a `ProductKey` in the
snapshot dict (`{"name": ..., "type": ..., "url": ...}`). -/
structure Record where
  name : String
  type : String
  url : String
deriving DecidableEq, Repr

/-- A snapshot: a Python dict from key to record, modelled as an
insertion-ordered association list. -/
abbrev Snapshot := List (String × Record)

/-- Python dict assignment `d[k] = v`: overwrite the value in place when the
key is present, append a new binding otherwise. -/
def dinsert (d : Snapshot) (k : String) (v : Record) : Snapshot :=
  if d.any (fun p => p.1 = k) then
    d.map (fun p => if p.1 = k then (k, v) else p)
  else d ++ [(k, v)]

/-- Python dict lookup `d[k]` as an optional value. -/
def dlookup (d : Snapshot) (k : String) : Option Record :=
  (d.find? (fun p => p.1 = k)).map (fun p => p.2)

/-- `d.keys()`. -/
def snapKeys (d : Snapshot) : List String := d.map (fun p => p.1)

/-! ## Card Extractor (`fetch_products_from_page` in product_monitor.py)

A parsed product card is abstracted to the three pieces of markup the
extractor inspects: the text of `div.detail-text h3` when present, the
`href` of the first anchor carrying one when present, and the `onclick`
attribute of `div.detail-cover` when present. -/

structure Card where
  title : Option String
  href : Option String
  onclick : Option String
deriving DecidableEq, Repr

/-- The primary link strategy (lines 72–75): the first anchor's `href`,
kept when it contains the product-path marker. -/
def primaryLink (card : Card) : Option String :=
  match card.href with
  | some h => if strContains h "/product/" then some h else none
  | none => none

/-- The fallback link strategy (lines 77–82): when the cover's `onclick`
mentions the redirect expression, take `onclick.split("'")[1]`.
`Except.error` models the raised Python `IndexError`: the split yields
fewer than two parts exactly when `onclick` holds no single-quote
character. -/
def fallbackLink (card : Card) : Except Unit (Option String) :=
  match card.onclick with
  | some oc =>
    if strContains oc "window.location.href" then
      match splitQuote oc.data with
      | _ :: second :: _ => .ok (some ⟨second⟩)
      | _ => .error ()
    else .ok none
  | none => .ok none

/-- The per-card body of the extraction loop of product_monitor.py
(lines 65–93): skip when the heading is absent, try the primary then the
fallback link strategy, skip when no truthy link results, make the link
absolute, clean it, and keep it only when it carries the mini-gt product
marker.  `Except.ok none` models `continue` (the card is skipped). -/
def extractCard (card : Card) : Except Unit (Option (String × String)) :=
  match card.title with
  | none => .ok none
  | some name =>
    let linkStep : Except Unit (Option String) :=
      match primaryLink card with
      | some l => .ok (some l)
      | none => fallbackLink card
    match linkStep with
    | .error e => .error e
    | .ok none => .ok none
    | .ok (some l) =>
      if !truthy l then .ok none
      else
        let l1 := if "/".data.isPrefixOf l.data then "https://www.karzanddolls.com" ++ l else l
        let l2 := clean_url l1
        if strContains l2 "/product/mini-gt" then .ok (some (name, l2)) else .ok none

/-- The whole card loop of `fetch_products_from_page`: cards are processed
in order, skipped cards contribute nothing, and an exception raised by any
card aborts the page. -/
def extractCards : List Card → Except Unit (List (String × String))
  | [] => .ok []
  | c :: rest =>
    match extractCard c with
    | .error e => .error e
    | .ok r =>
      match extractCards rest with
      | .error e => .error e
      | .ok rs =>
        match r with
        | none => .ok rs
        | some p => .ok (p :: rs)

/-! ## Listing Walker (`fetch_all_products` in product_monitor.py)

The fetch+extract of one page is abstracted as an oracle
`pages : Nat → List (String × String)` giving the usable `(name, link)`
items of page `n` (`fetch_products_from_page(f"{base_url}?page={n}")`),
as returned by a successful `extractCards`. -/

def MAX_PAGES : Nat := 30

/-- The key a scraped item is stored under (lines 110–111):
`pack_type = detect_pack_type(link); key = normalize_key(name, pack_type)`. -/
def itemKey (it : String × String) : String :=
  normalize_key it.1 (detect_pack_type it.2)

/-- The record built for a scraped item (lines 113–117). -/
def itemRec (it : String × String) : Record :=
  ⟨it.1, detect_pack_type it.2, it.2⟩

/-- The body of the inner merge loop (lines 109–117). -/
def processItem (d : Snapshot) (it : String × String) : Snapshot :=
  dinsert d (itemKey it) (itemRec it)

/-- The page loop for one listing source: `for page in range(1, MAX_PAGES + 1)`
with `break` on an empty page.  `budget` is the number of page iterations
remaining, `page` the next page number; the second component counts the
fetch calls issued. -/
def walkSource (pages : Nat → List (String × String)) :
    Nat → Nat → Snapshot → Snapshot × Nat
  | 0, _, acc => (acc, 0)
  | budget + 1, page, acc =>
    let items := pages page
    if items.isEmpty then (acc, 1)
    else
      let out := walkSource pages budget (page + 1) (items.foldl processItem acc)
      (out.1, out.2 + 1)

/-- Walking one listing source from page 1 with the configured ceiling. -/
def fetchSource (pages : Nat → List (String × String)) (acc : Snapshot) :
    Snapshot × Nat :=
  walkSource pages MAX_PAGES 1 acc

/-- `LISTING_URLS` of product_monitor.py. -/
def LISTING_URLS : List String :=
  ["https://www.karzanddolls.com/details/mini+gt+/mini-gt-blister-pack/MTY2",
   "https://www.karzanddolls.com/details/mini+gt+/mini-gt/MTY1"]

/-- `fetch_all_products` of product_monitor.py: the two listing sources are
walked in order into one shared accumulator; the oracle maps a base URL and
page number to that page's usable items.  The second component counts all
fetch calls. -/
def fetch_all_products (pages : String → Nat → List (String × String)) :
    Snapshot × Nat :=
  LISTING_URLS.foldl
    (fun st src =>
      let out := fetchSource (pages src) st.1
      (out.1, st.2 + out.2))
    ([], 0)

/-- The snapshot obtained by merging the items of pages
`start, start+1, ..., start+n-1` (in page order) into `acc`: the result the
page loop accumulates over the non-empty pages it visits. -/
def foldPages (pages : Nat → List (String × String)) :
    Nat → Nat → Snapshot → Snapshot
  | _, 0, acc => acc
  | start, n + 1, acc =>
    foldPages pages (start + 1) n ((pages start).foldl processItem acc)

/-- The last item of `items` whose derived key is `k`, if any: the record
that survives under `k` after the merge loop runs over `items`. -/
def lastKeyed (k : String) : List (String × String) → Option (String × String)
  | [] => none
  | it :: rest =>
    match lastKeyed k rest with
    | some r => some r
    | none => if itemKey it = k then some it else none

/-! ## The telegram variant's merge loop (productmonitor_telegram.py 90–108) -/

/-- The per-item body of the merge loop of productmonitor_telegram.py:
depending on the source label and a URL marker, store the record under
`normalize_key(name, url)` with type `"Blister"` or `"Box"`, else skip. -/
def processItemTg (label : String) (d : Snapshot) (p : String × String) : Snapshot :=
  let name := p.1
  let url := p.2
  if label = "Mini GT Blister Pack" && strContains url "mini-gt-blister-pack" then
    dinsert d (normalize_key_tg name url) ⟨name, "Blister", url⟩
  else if label = "Mini GT Box Pack" && strContains url "/product/mini-gt/" then
    dinsert d (normalize_key_tg name url) ⟨name, "Box", url⟩
  else d

/-! ## Diff Engine (product_monitor.py 191–195, productmonitor_telegram.py 158–162)

`set(previous.keys())`, `set(current.keys())` and their differences; a key
set is represented by the list of keys, with set membership as list
membership. -/

/-- `added_keys = curr_keys - prev_keys`. -/
def added_keys (previous current : Snapshot) : List String :=
  (snapKeys current).filter (fun k => !(snapKeys previous).contains k)

/-- `removed_keys = prev_keys - curr_keys`. -/
def removed_keys (previous current : Snapshot) : List String :=
  (snapKeys previous).filter (fun k => !(snapKeys current).contains k)

/-! ## The run tail: grouping, notification, persistence

The observable effects of `main` after the snapshots are in hand.  External
deliveries are modelled by flags saying whether the underlying transport
call would raise; `Except.error` is a propagating Python exception. -/

inductive Action where
  | emailSend
  | telegramSend
  | saveSnapshot
deriving DecidableEq, Repr

/-- One iteration of the `for k in keys` loop inside `group` of
product_monitor.py (lines 202–204): look up `p = source[k]` (raising
`KeyError` when absent) and append `p` to `out[p["type"]]` (raising
`KeyError` when the type is neither hardcoded bucket); a previously raised
exception propagates. -/
def groupStep (source : Snapshot)
    (acc : Except Unit (List Record × List Record)) (k : String) :
    Except Unit (List Record × List Record) :=
  match acc with
  | .error e => .error e
  | .ok (box, blister) =>
    match dlookup source k with
    | none => .error ()
    | some p =>
      if p.type = "Mini GT Box Pack" then .ok (box ++ [p], blister)
      else if p.type = "Mini GT Blister Pack" then .ok (box, blister ++ [p])
      else .error ()

/-- `group(keys, source)` of product_monitor.py (lines 197–205): distribute
the records of `keys` into the two hardcoded buckets
(`"Mini GT Box Pack"`, `"Mini GT Blister Pack"`), modelling the raised
`KeyError`s as `Except.error`. -/
def group (keys : List String) (source : Snapshot) :
    Except Unit (List Record × List Record) :=
  keys.foldl (groupStep source) (.ok ([], []))

/-- Configuration and transport behaviour for a product_monitor.py run:
whether each credential pair is set, and whether the SMTP delivery or the
telegram HTTP post would raise if attempted. -/
structure PmConfig where
  emailCreds : Bool
  telegramCreds : Bool
  emailRaises : Bool
  telegramRaises : Bool
deriving DecidableEq, Repr

/-- The SMTP session of `send_email` (raises on delivery failure). -/
def smtpDeliver (raises : Bool) : Except Unit Unit :=
  if raises then .error () else .ok ()

/-- The `requests.post` call of `send_telegram` (raises on network failure). -/
def telegramPost (raises : Bool) : Except Unit Unit :=
  if raises then .error () else .ok ()

/-- `send_email` of product_monitor.py (lines 141–159): missing credentials
return without attempting delivery; the delivery attempt is wrapped in
`try/except`, so an exception never escapes.  Returns the external actions
attempted and the (never failing) outcome. -/
def send_email (cfg : PmConfig) : List Action × Except Unit Unit :=
  if !cfg.emailCreds then ([], .ok ())
  else
    ([Action.emailSend],
     match smtpDeliver cfg.emailRaises with
     | .error _ => .ok ()
     | .ok u => .ok u)

/-- `send_telegram` of product_monitor.py (lines 162–179): same shape as
`send_email`, with the post wrapped in `try/except`. -/
def send_telegram_pm (cfg : PmConfig) : List Action × Except Unit Unit :=
  if !cfg.telegramCreds then ([], .ok ())
  else
    ([Action.telegramSend],
     match telegramPost cfg.telegramRaises with
     | .error _ => .ok ()
     | .ok u => .ok u)

/-- The tail of `main` in product_monitor.py (lines 191–249): diff, group
both key sets (each can raise `KeyError`), then
`send_email`; `send_telegram`; `save_products`.  The message rendering
itself cannot raise and is not modelled.  Returns the external actions
performed in order, and the outcome of the run. -/
def main_pm (cfg : PmConfig) (previous current : Snapshot) :
    List Action × Except Unit Unit :=
  let addK := added_keys previous current
  let remK := removed_keys previous current
  match group addK current with
  | .error e => ([], .error e)
  | .ok _ =>
    match group remK previous with
    | .error e => ([], .error e)
    | .ok _ =>
      let e1 := send_email cfg
      match e1.2 with
      | .error er => (e1.1, .error er)
      | .ok _ =>
        let e2 := send_telegram_pm cfg
        match e2.2 with
        | .error er => (e1.1 ++ e2.1, .error er)
        | .ok _ => (e1.1 ++ e2.1 ++ [Action.saveSnapshot], .ok ())

/-- Configuration and transport behaviour for a productmonitor_telegram.py
run. -/
structure TgConfig where
  telegramCreds : Bool
  telegramRaises : Bool
deriving DecidableEq, Repr

/-- `send_telegram` of productmonitor_telegram.py (lines 133–146): missing
credentials return without attempting delivery, but the `requests.post`
call is NOT wrapped in `try/except`, so a raised network error escapes. -/
def send_telegram_tg (cfg : TgConfig) : List Action × Except Unit Unit :=
  if !cfg.telegramCreds then ([], .ok ())
  else ([Action.telegramSend], telegramPost cfg.telegramRaises)

/-- The tail of `main` in productmonitor_telegram.py (lines 158–192):
the message rendering cannot raise; then `send_telegram(message)` followed
by `save_products(current)`.  An exception escaping `send_telegram`
propagates and `save_products` is never reached. -/
def main_tg (cfg : TgConfig) (_previous _current : Snapshot) :
    List Action × Except Unit Unit :=
  let e1 := send_telegram_tg cfg
  match e1.2 with
  | .error er => (e1.1, .error er)
  | .ok _ => (e1.1 ++ [Action.saveSnapshot], .ok ())

/-! ## Snapshot Store (`save_products` / `load_previous_products`)

`save_products` is `json.dump(products, f, indent=2)` and loading is
`json.load(f)`.  The `json` library is external to the repository, so it is
embedded here for the data that actually flows through it: string-keyed
objects of three-field string records.  `escChar` performs the escaping
`json.dump` applies to printable-ASCII strings (only the double quote and
the backslash need escaping there); the parser is a whitespace-tolerant
recursive-descent reader for the object shape `save_products` emits. -/

/-- JSON string escaping for printable ASCII characters. -/
def escChar (c : Char) : List Char :=
  if c = dquote then [bslash, dquote]
  else if c = bslash then [bslash, bslash]
  else [c]

/-- A rendered JSON string literal, quotes included. -/
def renderStr (s : String) : List Char :=
  dquote :: (s.data.map escChar).flatten ++ [dquote]

/-- `"\n  "`. -/
def ws2 : List Char := [nlChar, ' ', ' ']

/-- `"\n    "`. -/
def ws4 : List Char := [nlChar, ' ', ' ', ' ', ' ']

/-- One `"key": "value"` member. -/
def renderField (k v : String) : List Char :=
  renderStr k ++ [colonChar, ' '] ++ renderStr v

/-- One record object, as `json.dump(..., indent=2)` nests it two levels
deep: `{"name": ..., "type": ..., "url": ...}` with four-space member
indentation and a two-space-indented closing brace. -/
def renderRecord (r : Record) : List Char :=
  [lbrace] ++ ws4 ++ renderField "name" r.name ++ [commaChar]
    ++ ws4 ++ renderField "type" r.type ++ [commaChar]
    ++ ws4 ++ renderField "url" r.url ++ ws2 ++ [rbrace]

/-- One top-level `"key": {record}` entry. -/
def renderEntry (e : String × Record) : List Char :=
  renderStr e.1 ++ [colonChar, ' '] ++ renderRecord e.2

/-- The top-level entries joined by `",\n  "`. -/
def renderEntries : Snapshot → List Char
  | [] => []
  | [e] => renderEntry e
  | e :: rest => renderEntry e ++ [commaChar] ++ ws2 ++ renderEntries rest

/-- `save_products(products)`: the exact text `json.dump(products, f,
indent=2)` writes to the data file. -/
def save_products (snap : Snapshot) : String :=
  match snap with
  | [] => ⟨[lbrace, rbrace]⟩
  | _ => ⟨[lbrace] ++ ws2 ++ renderEntries snap ++ [nlChar, rbrace]⟩

/-- Skip insignificant whitespace. -/
def skipWs (cs : List Char) : List Char := cs.dropWhile Char.isWhitespace

/-- Parse the body of a JSON string after its opening quote, undoing
`escChar`; returns the content and the input after the closing quote. -/
def parseStrBody : List Char → Option (List Char × List Char)
  | [] => none
  | c :: rest =>
    if c = dquote then some ([], rest)
    else if c = bslash then
      match rest with
      | [] => none
      | e :: rest2 =>
        if e = dquote || e = bslash then
          match parseStrBody rest2 with
          | some (s, r) => some (e :: s, r)
          | none => none
        else none
    else
      match parseStrBody rest with
      | some (s, r) => some (c :: s, r)
      | none => none

/-- Skip whitespace and consume one expected character. -/
def expectChar (c : Char) (cs : List Char) : Option (List Char) :=
  match skipWs cs with
  | [] => none
  | x :: rest => if x = c then some rest else none

/-- Skip whitespace and parse one JSON string literal. -/
def parseQuoted (cs : List Char) : Option (List Char × List Char) :=
  match expectChar dquote cs with
  | some rest => parseStrBody rest
  | none => none

/-- Parse one `"key": "value"` member whose key must be `key`. -/
def parseField (key : String) (cs : List Char) : Option (String × List Char) :=
  match parseQuoted cs with
  | some (k, rest) =>
    if k = key.data then
      match expectChar colonChar rest with
      | some rest2 =>
        match parseQuoted rest2 with
        | some (v, rest3) => some (⟨v⟩, rest3)
        | none => none
      | none => none
    else none
  | none => none

/-- Parse one record object in the field order `save_products` writes. -/
def parseRecord (cs : List Char) : Option (Record × List Char) :=
  match expectChar lbrace cs with
  | none => none
  | some r1 =>
    match parseField "name" r1 with
    | none => none
    | some (n, r2) =>
      match expectChar commaChar r2 with
      | none => none
      | some r3 =>
        match parseField "type" r3 with
        | none => none
        | some (t, r4) =>
          match expectChar commaChar r4 with
          | none => none
          | some r5 =>
            match parseField "url" r5 with
            | none => none
            | some (u, r6) =>
              match expectChar rbrace r6 with
              | none => none
              | some r7 => some (⟨n, t, u⟩, r7)

/-- Parse a non-empty sequence of top-level entries up to and including the
closing brace of the object; `fuel` bounds the number of entries. -/
def parseEntries : Nat → List Char → Option (Snapshot × List Char)
  | 0, _ => none
  | fuel + 1, cs =>
    match parseQuoted cs with
    | none => none
    | some (k, rest) =>
      match expectChar colonChar rest with
      | none => none
      | some rest2 =>
        match parseRecord rest2 with
        | none => none
        | some (r, rest3) =>
          match skipWs rest3 with
          | [] => none
          | x :: rest4 =>
            if x = commaChar then
              match parseEntries fuel rest4 with
              | none => none
              | some (tail, rest5) => some ((⟨k⟩, r) :: tail, rest5)
            else if x = rbrace then some ([(⟨k⟩, r)], rest4)
            else none

/-- `json.load` on a data file written by `save_products`: parse the object
and require only trailing whitespace after it. -/
def load_products (s : String) : Option Snapshot :=
  match expectChar lbrace s.data with
  | none => none
  | some rest =>
    match skipWs rest with
    | [] => none
    | x :: rest2 =>
      if x = rbrace then
        if (skipWs rest2).isEmpty then some [] else none
      else
        match parseEntries (s.data.length + 1) (x :: rest2) with
        | none => none
        | some (snap, rest3) =>
          if (skipWs rest3).isEmpty then some snap else none

/-- The characters for which `escChar` matches `json.dump`'s escaping:
printable ASCII. -/
def goodChar (c : Char) : Prop := 32 ≤ c.toNat ∧ c.toNat ≤ 126

/-- All characters of a string printable ASCII. -/
def goodStr (s : String) : Prop := ∀ c ∈ s.data, goodChar c

/-- All strings of a snapshot printable ASCII. -/
def goodSnap (snap : Snapshot) : Prop :=
  ∀ e ∈ snap, goodStr e.1 ∧ goodStr e.2.name ∧ goodStr e.2.type ∧ goodStr e.2.url

/-! ## Helper lemmas -/

theorem string_data_append (a b : String) : (a ++ b).data = a.data ++ b.data := rfl

theorem toLower_of_whitespace (c : Char) (h : c.isWhitespace = true) :
    c.toLower = c := by
  have h' : c = ' ' ∨ c = '\t' ∨ c = '\x0d' ∨ c = '\n' := by
    simpa [Char.isWhitespace, or_assoc] using h
  rcases h' with h | h | h | h <;> subst h <;> decide

theorem dropWhile_ws_append (w x : List Char)
    (hw : ∀ c ∈ w, c.isWhitespace = true) :
    (w ++ x).dropWhile Char.isWhitespace = x.dropWhile Char.isWhitespace := by
  induction w with
  | nil => simp
  | cons c w ih =>
    simp only [List.cons_append, List.dropWhile_cons, hw c (by simp), if_true]
    exact ih fun d hd => hw d (by simp [hd])

theorem stripChars_ws_left (w x : List Char)
    (hw : ∀ c ∈ w, c.isWhitespace = true) :
    stripChars (w ++ x) = stripChars x := by
  unfold stripChars
  rw [dropWhile_ws_append w x hw]

theorem stripChars_ws_right (x w : List Char)
    (hw : ∀ c ∈ w, c.isWhitespace = true) :
    stripChars (x ++ w) = stripChars x := by
  unfold stripChars
  rcases h : x.dropWhile Char.isWhitespace with _ | ⟨a, t⟩
  · have hx : ∀ c ∈ x, c.isWhitespace = true := List.dropWhile_eq_nil_iff.1 h
    have : (x ++ w).dropWhile Char.isWhitespace = [] := by
      rw [dropWhile_ws_append x w hx]
      exact List.dropWhile_eq_nil_iff.2 hw
    simp [this]
  · rw [List.dropWhile_append, h]
    simp only [List.isEmpty_cons, Bool.false_eq_true, if_false]
    rw [List.reverse_append, dropWhile_ws_append w.reverse (a :: t).reverse
      (fun c hc => hw c (List.mem_reverse.1 hc))]

end ProductMonitor

namespace ProductMonitor

/-!
Claims: each claim of the specification is settled by one theorem below;
claims the code falsifies additionally get a closed counterexample theorem.
-/

/-- C1: the Diff Engine computes exactly the set differences of the key
sets: a key is in `added_keys` iff it is a current key and not a previous
key, a key is in `removed_keys` iff it is a previous key and not a current
key, and for every snapshot `S`, diffing `S` against itself yields empty
added and removed sets. -/
theorem diff_engine_set_difference (previous current : Snapshot) :
    (∀ k, k ∈ added_keys previous current ↔
        k ∈ snapKeys current ∧ k ∉ snapKeys previous) ∧
    (∀ k, k ∈ removed_keys previous current ↔
        k ∈ snapKeys previous ∧ k ∉ snapKeys current) ∧
    (∀ S : Snapshot, added_keys S S = [] ∧ removed_keys S S = []) := by
  refine ⟨?_, ?_, ?_⟩
  · intro k
    simp [added_keys, List.mem_filter, List.contains, List.elem_iff]
  · intro k
    simp [removed_keys, List.mem_filter, List.contains, List.elem_iff]
  · intro S
    constructor <;>
      · apply List.filter_eq_nil_iff.2
        intro k hk
        simp [List.contains, List.elem_iff, hk]

/-- C2, counterexample: key normalization is not stable under the
variations the claim lists.  In productmonitor_telegram.py two candidates
that differ only in an encoded/opaque trailing URL path segment get
different keys (no path truncation is performed anywhere), and in
product_monitor.py two names that differ only in internal whitespace get
different keys. -/
theorem key_normalizer_unstable_counterexample :
    normalize_key_tg "Alpha"
        "https://www.karzanddolls.com/product/mini-gt/alpha/ENCTAIL1" ≠
      normalize_key_tg "Alpha"
        "https://www.karzanddolls.com/product/mini-gt/alpha/ENCTAIL2" ∧
    normalize_key "Mini  GT Car" "Mini GT Box Pack" ≠
      normalize_key "Mini GT Car" "Mini GT Box Pack" := by
  constructor <;> decide

/-- C2, amended: product_monitor.py's `normalize_key` is stable under
case variation and surrounding whitespace of the name (and ignores the URL
entirely): prepending and appending whitespace to a name and changing it to
any name with the same per-character lowercasing leaves the key unchanged.
Internal-whitespace variation and opaque URL tails are NOT normalized, and
no truncation of the URL path to the two segments preceding an opaque tail
exists in the code. -/
theorem key_normalizer_amended (pt n₁ n₂ : String) (w₁ w₂ : List Char)
    (hw₁ : ∀ c ∈ w₁, c.isWhitespace = true)
    (hw₂ : ∀ c ∈ w₂, c.isWhitespace = true)
    (hcase : n₁.data.map Char.toLower = n₂.data.map Char.toLower) :
    normalize_key ⟨w₁ ++ n₁.data ++ w₂⟩ pt = normalize_key n₂ pt := by
  unfold normalize_key pyStrip pyLower
  refine congrArg (fun z => pt ++ "::" ++ z) (congrArg String.mk ?_)
  show stripChars ((w₁ ++ n₁.data ++ w₂).map Char.toLower)
      = stripChars (n₂.data.map Char.toLower)
  have e₁ : w₁.map Char.toLower = w₁ := by
    rw [List.map_congr_left fun c hc => toLower_of_whitespace c (hw₁ c hc)]
    exact List.map_id w₁
  have e₂ : w₂.map Char.toLower = w₂ := by
    rw [List.map_congr_left fun c hc => toLower_of_whitespace c (hw₂ c hc)]
    exact List.map_id w₂
  rw [List.map_append, List.map_append, e₁, e₂, List.append_assoc,
    stripChars_ws_left _ _ hw₁, stripChars_ws_right _ _ hw₂, hcase]

/-- Witness for `key_normalizer_amended` at a concrete input. -/
theorem key_normalizer_amended_witness :
    normalize_key ⟨[' '] ++ "MiNi GT CaR".data ++ [' ', '\t']⟩ "Mini GT Box Pack"
      = normalize_key "mini gt car" "Mini GT Box Pack" :=
  key_normalizer_amended "Mini GT Box Pack" "MiNi GT CaR" "mini gt car"
    [' '] [' ', '\t'] (by decide) (by decide) (by decide)

/-- C6, counterexample: in productmonitor_telegram.py the derived
ProductKey does not combine the source's packType (nor the name): a URL
containing both source markers is accepted under both labels and yields the
same key for a `"Blister"`-typed and a `"Box"`-typed record, and two
different names with the same URL yield the same key. -/
theorem product_key_omits_packtype_counterexample :
    normalize_key_tg "Alpha"
        "https://www.karzanddolls.com/product/mini-gt/mini-gt-blister-pack-x"
      = normalize_key_tg "Beta"
        "https://www.karzanddolls.com/product/mini-gt/mini-gt-blister-pack-x" ∧
    processItemTg "Mini GT Blister Pack" []
        ("Alpha", "https://www.karzanddolls.com/product/mini-gt/mini-gt-blister-pack-x")
      = [("https://www.karzanddolls.com/product/mini-gt/mini-gt-blister-pack-x",
          ⟨"Alpha", "Blister",
           "https://www.karzanddolls.com/product/mini-gt/mini-gt-blister-pack-x"⟩)] ∧
    processItemTg "Mini GT Box Pack" []
        ("Alpha", "https://www.karzanddolls.com/product/mini-gt/mini-gt-blister-pack-x")
      = [("https://www.karzanddolls.com/product/mini-gt/mini-gt-blister-pack-x",
          ⟨"Alpha", "Box",
           "https://www.karzanddolls.com/product/mini-gt/mini-gt-blister-pack-x"⟩)] := by
  refine ⟨by decide, by decide, by decide⟩

/-- C6, amended: in product_monitor.py the derived ProductKey does
combine the source's packType with the normalized name: keys built for the
two pack types are always distinct, whatever the names, and the key is
independent of the URL as long as the URL's detected pack type is unchanged
(so cosmetic URL changes cannot alter the key).  In
productmonitor_telegram.py the key is only the normalized full URL. -/
theorem product_key_amended :
    (∀ n₁ n₂ : String,
        normalize_key n₁ "Mini GT Box Pack" ≠ normalize_key n₂ "Mini GT Blister Pack") ∧
    (∀ (n u u' : String), detect_pack_type u = detect_pack_type u' →
        itemKey (n, u) = itemKey (n, u')) := by
  constructor
  · intro n₁ n₂ h
    have h9 := congrArg (fun s : String => s.data[9]?) h
    simp only [normalize_key] at h9
    rw [string_data_append, string_data_append, string_data_append,
      string_data_append] at h9
    rw [List.append_assoc, List.append_assoc] at h9
    rw [List.getElem?_append,
      if_pos (by decide : (9 : Nat) < "Mini GT Box Pack".data.length)] at h9
    rw [List.getElem?_append,
      if_pos (by decide : (9 : Nat) < "Mini GT Blister Pack".data.length)] at h9
    exact absurd h9 (by decide)
  · intro n u u' h
    unfold itemKey
    rw [h]

/-- Witness for `product_key_amended` at concrete inputs. -/
theorem product_key_amended_witness :
    normalize_key "same" "Mini GT Box Pack" ≠ normalize_key "same" "Mini GT Blister Pack" ∧
    itemKey ("Car", "https://www.karzanddolls.com/product/mini-gt/car?sid=1")
      = itemKey ("Car", "https://www.karzanddolls.com/product/mini-gt/car?sid=2") :=
  ⟨product_key_amended.1 "same" "same",
   product_key_amended.2 "Car"
     "https://www.karzanddolls.com/product/mini-gt/car?sid=1"
     "https://www.karzanddolls.com/product/mini-gt/car?sid=2" (by decide)⟩

/-- The page loop stops at the first empty page: if pages
`start..start+k-1` are non-empty and page `start+k` is empty (within the
budget), the walk merges exactly those pages and issues `k + 1` fetches. -/
theorem walkSource_first_empty (pages : Nat → List (String × String)) (k : Nat) :
    ∀ (budget start : Nat) (acc : Snapshot),
    k + 1 ≤ budget →
    pages (start + k) = [] →
    (∀ i, i < k → pages (start + i) ≠ []) →
    walkSource pages budget start acc = (foldPages pages start k acc, k + 1) := by
  induction k with
  | zero =>
    intro budget start acc hb he _
    obtain ⟨b, rfl⟩ : ∃ b, budget = b + 1 := ⟨budget - 1, by omega⟩
    simp only [Nat.add_zero] at he
    simp [walkSource, he, foldPages]
  | succ k ih =>
    intro budget start acc hb he hf
    obtain ⟨b, rfl⟩ : ∃ b, budget = b + 1 := ⟨budget - 1, by omega⟩
    have h0 : pages start ≠ [] := by simpa using hf 0 (by omega)
    have hne : (pages start).isEmpty = false := by simp [List.isEmpty_iff, h0]
    simp only [walkSource, hne, Bool.false_eq_true, if_false]
    rw [ih b (start + 1) ((pages start).foldl processItem acc) (by omega)
      (by rw [show start + 1 + k = start + (k + 1) by omega]; exact he)
      (fun i hi => by
        rw [show start + 1 + i = start + (i + 1) by omega]
        exact hf (i + 1) (by omega))]
    simp [foldPages]

/-- When every page within the budget is non-empty, the walk issues exactly
`budget` fetches (the page-count ceiling). -/
theorem walkSource_all_nonempty (pages : Nat → List (String × String))
    (budget : Nat) :
    ∀ (start : Nat) (acc : Snapshot),
    (∀ i, i < budget → pages (start + i) ≠ []) →
    (walkSource pages budget start acc).2 = budget := by
  induction budget with
  | zero => intro start acc _; rfl
  | succ b ih =>
    intro start acc hf
    have h0 : pages start ≠ [] := by simpa using hf 0 (by omega)
    have hne : (pages start).isEmpty = false := by simp [List.isEmpty_iff, h0]
    simp only [walkSource, hne, Bool.false_eq_true, if_false]
    rw [ih (start + 1) ((pages start).foldl processItem acc) (fun i hi => by
      rw [show start + 1 + i = start + (i + 1) by omega]
      exact hf (i + 1) (by omega))]

/-- C4: for a listing source, the Listing Walker iterates page numbers
from 1 upward and stops at the first page yielding zero candidates or at
the page-count ceiling, whichever comes first: if pages `1..k` are
non-empty and page `k + 1` is empty (within `MAX_PAGES`), it merges exactly
pages `1..k` and issues exactly `k + 1` fetch calls; and if no page within
the ceiling is empty it issues exactly `MAX_PAGES` fetch calls. -/
theorem listing_walker_pagination (pages : Nat → List (String × String))
    (acc : Snapshot) :
    (∀ k, k + 1 ≤ MAX_PAGES → pages (1 + k) = [] →
      (∀ i, i < k → pages (1 + i) ≠ []) →
      fetchSource pages acc = (foldPages pages 1 k acc, k + 1)) ∧
    ((∀ i, i < MAX_PAGES → pages (1 + i) ≠ []) →
      (fetchSource pages acc).2 = MAX_PAGES) := by
  constructor
  · intro k hk he hf
    exact walkSource_first_empty pages k MAX_PAGES 1 acc hk he hf
  · intro hf
    exact walkSource_all_nonempty pages MAX_PAGES 1 acc hf

/-- Witness for `listing_walker_pagination`: page 1 yields 2 usable cards
and page 2 yields 0, so the walker returns exactly the 2 records from
page 1 after exactly 2 fetch calls; and a source whose pages never go empty
is fetched exactly `MAX_PAGES` times. -/
theorem listing_walker_pagination_witness :
    fetchSource (fun p => if p = 1 then
        [("Car A", "https://www.karzanddolls.com/product/mini-gt/car-a"),
         ("Car B", "https://www.karzanddolls.com/product/mini-gt/car-b")]
      else []) []
      = ([("Mini GT Box Pack::car a",
           ⟨"Car A", "Mini GT Box Pack",
            "https://www.karzanddolls.com/product/mini-gt/car-a"⟩),
          ("Mini GT Box Pack::car b",
           ⟨"Car B", "Mini GT Box Pack",
            "https://www.karzanddolls.com/product/mini-gt/car-b"⟩)], 2) ∧
    (fetchSource (fun _ => [("X", "u")]) []).2 = MAX_PAGES := by
  constructor
  · rw [(listing_walker_pagination _ []).1 1 (by decide) (by decide)
      (fun i hi => by interval_cases i; decide)]
    decide
  · exact (listing_walker_pagination _ []).2 (fun i _ => by simp)

/-- Overwriting an existing key leaves the key list unchanged. -/
theorem snapKeys_dinsert_mem (d : Snapshot) (k : String) (v : Record)
    (h : d.any (fun p => p.1 = k) = true) :
    snapKeys (dinsert d k v) = snapKeys d := by
  unfold dinsert snapKeys
  rw [if_pos h, List.map_map]
  apply List.map_congr_left
  intro p _
  by_cases hp : p.1 = k
  · simp [hp]
  · simp [hp]

/-- Inserting a fresh key appends it to the key list. -/
theorem snapKeys_dinsert_not_mem (d : Snapshot) (k : String) (v : Record)
    (h : d.any (fun p => p.1 = k) = false) :
    snapKeys (dinsert d k v) = snapKeys d ++ [k] := by
  unfold dinsert snapKeys
  rw [if_neg (by simp [h])]
  simp

/-- `dinsert` preserves key uniqueness. -/
theorem nodup_keys_dinsert (d : Snapshot) (k : String) (v : Record)
    (hd : (snapKeys d).Nodup) : (snapKeys (dinsert d k v)).Nodup := by
  rcases ha : d.any (fun p => p.1 = k) with _ | _
  · rw [snapKeys_dinsert_not_mem d k v ha]
    have hk : k ∉ snapKeys d := by
      intro hmem
      obtain ⟨p, hp, hpk⟩ := List.mem_map.1 hmem
      rw [List.any_eq_false] at ha
      have hne := ha p hp
      simp only [decide_eq_true_eq] at hne
      exact hne hpk
    exact List.Nodup.append hd (List.nodup_singleton k)
      (fun x hx hx' => by
        rw [List.mem_singleton] at hx'
        exact hk (hx' ▸ hx))
  · rw [snapKeys_dinsert_mem d k v ha]
    exact hd

/-- The merge loop over a page's items preserves key uniqueness. -/
theorem nodup_keys_foldl (items : List (String × String)) :
    ∀ d : Snapshot, (snapKeys d).Nodup →
      (snapKeys (items.foldl processItem d)).Nodup := by
  induction items with
  | nil => intro d hd; exact hd
  | cons it rest ih =>
    intro d hd
    exact ih _ (nodup_keys_dinsert _ _ _ hd)

/-- The page loop preserves key uniqueness. -/
theorem nodup_keys_walkSource (pages : Nat → List (String × String))
    (budget : Nat) :
    ∀ (start : Nat) (d : Snapshot), (snapKeys d).Nodup →
      (snapKeys (walkSource pages budget start d).1).Nodup := by
  induction budget with
  | zero => intro start d hd; exact hd
  | succ b ih =>
    intro start d hd
    simp only [walkSource]
    by_cases he : (pages start).isEmpty
    · simp only [he, if_true]
      exact hd
    · simp only [he, Bool.false_eq_true, if_false]
      exact ih _ _ (nodup_keys_foldl _ _ hd)

/-- If an existing key is overwritten, looking it up returns the new
record. -/
theorem find?_map_overwrite (d : Snapshot) (k : String) (v : Record)
    (h : d.any (fun p => p.1 = k) = true) :
    (d.map (fun p => if p.1 = k then (k, v) else p)).find?
        (fun p => p.1 = k) = some (k, v) := by
  induction d with
  | nil => simp at h
  | cons p rest ih =>
    by_cases hp : p.1 = k
    · simp [List.find?_cons, hp]
    · have hrest : rest.any (fun p => p.1 = k) = true := by
        simpa [hp] using h
      simpa [List.find?_cons, hp] using ih hrest

/-- A key absent from every entry is not found. -/
theorem find?_eq_none_of_any_false (d : Snapshot) (k : String)
    (h : d.any (fun p => p.1 = k) = false) :
    d.find? (fun p => p.1 = k) = none := by
  rw [List.find?_eq_none]
  intro p hp
  rw [List.any_eq_false] at h
  simpa using h p hp

/-- Last-seen-wins at the inserted key. -/
theorem dlookup_dinsert_self (d : Snapshot) (k : String) (v : Record) :
    dlookup (dinsert d k v) k = some v := by
  unfold dinsert dlookup
  rcases ha : d.any (fun p => p.1 = k) with _ | _
  · rw [if_neg (by simp [ha]), List.find?_append,
      find?_eq_none_of_any_false d k ha]
    simp [List.find?_cons]
  · rw [if_pos rfl, find?_map_overwrite d k v ha]
    rfl

/-- Overwriting the entry of key `k` does not affect the search for a
different key `k'`. -/
theorem find?_map_other (d : Snapshot) (k k' : String) (v : Record)
    (hne : k' ≠ k) :
    (d.map (fun p => if p.1 = k then (k, v) else p)).find?
        (fun p => p.1 = k')
      = d.find? (fun p => p.1 = k') := by
  induction d with
  | nil => rfl
  | cons p rest ih =>
    simp only [List.map_cons, List.find?_cons]
    by_cases hp : p.1 = k
    · rw [if_pos hp]
      rw [show (decide ((k, v).1 = k')) = false by simp [Ne.symm hne]]
      rw [show (decide (p.1 = k')) = false by simp [hp, Ne.symm hne]]
      exact ih
    · rw [if_neg hp]
      by_cases hq : p.1 = k'
      · simp [hq]
      · rw [show (decide (p.1 = k')) = false by simp [hq]]
        exact ih

/-- Inserting under one key does not change the lookup of another. -/
theorem dlookup_dinsert_ne (d : Snapshot) (k k' : String) (v : Record)
    (hne : k' ≠ k) : dlookup (dinsert d k v) k' = dlookup d k' := by
  unfold dinsert dlookup
  rcases ha : d.any (fun p => p.1 = k) with _ | _
  · rw [if_neg (by simp [ha]), List.find?_append]
    have : List.find? (fun p => p.1 = k') [(k, v)] = none := by
      simp [List.find?_cons, (Ne.symm hne)]
    rw [this]
    simp
  · rw [if_pos rfl, find?_map_other d k k' v hne]

/-- C7: within every snapshot built by the Listing Walker the keys are
unique, and when several items of a run collide on the same key the
later-seen item's record is the one stored (last-seen-wins): after the
merge loop, the lookup of any key returns the record of the last item
deriving that key, and the prior accumulator value when no item does. -/
theorem snapshot_keys_unique_last_wins :
    (∀ pages : String → Nat → List (String × String),
        (snapKeys (fetch_all_products pages).1).Nodup) ∧
    (∀ (items : List (String × String)) (d : Snapshot) (k : String),
        dlookup (items.foldl processItem d) k =
          match lastKeyed k items with
          | some it => some (itemRec it)
          | none => dlookup d k) := by
  constructor
  · intro pages
    unfold fetch_all_products
    simp only [LISTING_URLS, List.foldl_cons, List.foldl_nil]
    exact nodup_keys_walkSource _ _ _ _
      (nodup_keys_walkSource _ _ _ _ List.nodup_nil)
  · intro items
    induction items with
    | nil => intro d k; rfl
    | cons it rest ih =>
      intro d k
      simp only [List.foldl_cons, lastKeyed]
      rw [ih (processItem d it) k]
      cases hlk : lastKeyed k rest with
      | some r => rfl
      | none =>
        unfold processItem
        by_cases hk : itemKey it = k
        · subst hk
          simp [dlookup_dinsert_self]
        · simp only [if_neg hk]
          exact dlookup_dinsert_ne d (itemKey it) k (itemRec it)
            (fun h => hk h.symm)

/-- C3, counterexample: notification delivery is not isolated in
productmonitor_telegram.py: when credentials are set and the telegram post
raises, the exception escapes `send_telegram` (which has no `try/except`)
and the run aborts before `save_products` — the new snapshot is not
persisted. -/
theorem notify_failure_aborts_counterexample :
    main_tg ⟨true, true⟩ [] [] = ([Action.telegramSend], .error ()) ∧
    Action.saveSnapshot ∉ (main_tg ⟨true, true⟩ [] []).1 := by
  exact ⟨rfl, by decide⟩

/-- C3, amended: in product_monitor.py notification delivery is
best-effort and isolated: each channel's send is wrapped in `try/except`,
so whatever the transports do, the run succeeds, the snapshot is saved and
every channel with credentials is attempted.  In productmonitor_telegram.py
a raising telegram post instead aborts the run before the snapshot is
saved. -/
theorem notification_isolation_amended (cfg : PmConfig)
    (previous current : Snapshot)
    (hadd : ∃ a, group (added_keys previous current) current = .ok a)
    (hrem : ∃ b, group (removed_keys previous current) previous = .ok b) :
    Action.saveSnapshot ∈ (main_pm cfg previous current).1 ∧
    (main_pm cfg previous current).2 = .ok () ∧
    (cfg.emailCreds = true → Action.emailSend ∈ (main_pm cfg previous current).1) ∧
    (cfg.telegramCreds = true →
      Action.telegramSend ∈ (main_pm cfg previous current).1) ∧
    (∀ tcfg : TgConfig, tcfg.telegramCreds = true → tcfg.telegramRaises = true →
      main_tg tcfg previous current = ([Action.telegramSend], .error ())) := by
  obtain ⟨a, ha⟩ := hadd
  obtain ⟨b, hb⟩ := hrem
  refine ⟨?_, ?_, ?_, ?_, ?_⟩
  · simp only [main_pm]
    rw [ha, hb]
    rcases cfg with ⟨ec, tc, er, tr⟩
    cases ec <;> cases tc <;> cases er <;> cases tr <;>
      simp [send_email, send_telegram_pm, smtpDeliver, telegramPost]
  · simp only [main_pm]
    rw [ha, hb]
    rcases cfg with ⟨ec, tc, er, tr⟩
    cases ec <;> cases tc <;> cases er <;> cases tr <;>
      simp [send_email, send_telegram_pm, smtpDeliver, telegramPost]
  · intro hec
    simp only [main_pm]
    rw [ha, hb]
    rcases cfg with ⟨ec, tc, er, tr⟩
    cases ec
    · exact absurd hec (by simp)
    · cases tc <;> cases er <;> cases tr <;>
        simp [send_email, send_telegram_pm, smtpDeliver, telegramPost]
  · intro htc
    simp only [main_pm]
    rw [ha, hb]
    rcases cfg with ⟨ec, tc, er, tr⟩
    cases tc
    · exact absurd htc (by simp)
    · cases ec <;> cases er <;> cases tr <;>
        simp [send_email, send_telegram_pm, smtpDeliver, telegramPost]
  · rintro ⟨tcc, tcr⟩ h1 h2
    subst h1
    subst h2
    rfl

/-- Witness for `notification_isolation_amended`: with both credential
pairs set and a failing SMTP delivery, the telegram channel is still
attempted and the snapshot is still saved. -/
theorem notification_isolation_amended_witness :
    Action.saveSnapshot ∈ (main_pm ⟨true, true, true, false⟩ [] []).1 ∧
    Action.telegramSend ∈ (main_pm ⟨true, true, true, false⟩ [] []).1 ∧
    (main_pm ⟨true, true, true, false⟩ [] []).2 = .ok () := by
  have h := notification_isolation_amended ⟨true, true, true, false⟩ [] []
    ⟨([], []), rfl⟩ ⟨([], []), rfl⟩
  exact ⟨h.1, h.2.2.2.1 rfl, h.2.1⟩

/-- C9: every notification credential pair is optional: with a
credential pair absent, that channel's send is a no-op that returns without
raising and attempts no delivery, and the run still completes and persists
the new snapshot (in both scripts). -/
theorem credentials_optional (eR tR : Bool) (previous current : Snapshot)
    (hadd : ∃ a, group (added_keys previous current) current = .ok a)
    (hrem : ∃ b, group (removed_keys previous current) previous = .ok b) :
    send_email ⟨false, false, eR, tR⟩ = ([], .ok ()) ∧
    send_telegram_pm ⟨false, false, eR, tR⟩ = ([], .ok ()) ∧
    send_telegram_tg ⟨false, tR⟩ = ([], .ok ()) ∧
    main_pm ⟨false, false, eR, tR⟩ previous current
      = ([Action.saveSnapshot], .ok ()) ∧
    main_tg ⟨false, tR⟩ previous current = ([Action.saveSnapshot], .ok ()) := by
  obtain ⟨a, ha⟩ := hadd
  obtain ⟨b, hb⟩ := hrem
  refine ⟨rfl, rfl, rfl, ?_, rfl⟩
  simp only [main_pm]
  rw [ha, hb]
  rfl

/-- Witness for `credentials_optional`: no credentials at all, both
transports would raise if attempted — the run still saves the snapshot. -/
theorem credentials_optional_witness :
    main_pm ⟨false, false, true, true⟩ [] [] = ([Action.saveSnapshot], .ok ()) ∧
    main_tg ⟨false, true⟩ [] [] = ([Action.saveSnapshot], .ok ()) := by
  have h := credentials_optional true true [] [] ⟨([], []), rfl⟩ ⟨([], []), rfl⟩
  exact ⟨h.2.2.2.1, h.2.2.2.2⟩

/-- A propagated exception absorbs the rest of the `group` loop. -/
theorem group_foldl_error (keys : List String) (source : Snapshot) :
    keys.foldl (groupStep source) (.error ()) = .error () := by
  induction keys with
  | nil => rfl
  | cons k rest ih => exact ih

/-- If some key of `keys` resolves to a record whose type is neither
hardcoded bucket, the `group` loop raises `KeyError`. -/
theorem group_error_of_bad_type (keys : List String) (source : Snapshot)
    (k : String) (r : Record) :
    ∀ acc, k ∈ keys → dlookup source k = some r →
    r.type ≠ "Mini GT Box Pack" → r.type ≠ "Mini GT Blister Pack" →
    keys.foldl (groupStep source) acc = .error () := by
  induction keys with
  | nil =>
    intro acc h
    exact absurd h (List.not_mem_nil k)
  | cons k0 rest ih =>
    intro acc hmem hr ht1 ht2
    simp only [List.foldl_cons]
    rcases acc with e | ⟨box, blister⟩
    · cases e
      rw [show groupStep source (.error ()) k0 = .error () from rfl]
      exact group_foldl_error rest source
    · rcases List.mem_cons.1 hmem with h1 | h1
      · subst h1
        rw [show groupStep source (.ok (box, blister)) k = .error () by
          simp only [groupStep, hr, if_neg ht1, if_neg ht2]]
        exact group_foldl_error rest source
      · exact ih _ h1 hr ht1 ht2

/-- C10: product_monitor.py's report grouping assumes every record type
is one of the two hardcoded strings: whenever the previous snapshot holds a
removed record of any other type (such as the `"Box"`/`"Blister"` values
productmonitor_telegram.py writes into the shared data file), the grouping
raises `KeyError` and the run aborts before any notification is sent or the
new snapshot is saved. -/
theorem foreign_type_aborts_run (cfg : PmConfig) (previous current : Snapshot)
    (hadd : ∃ a, group (added_keys previous current) current = .ok a)
    (k : String) (r : Record)
    (hk : k ∈ removed_keys previous current)
    (hr : dlookup previous k = some r)
    (ht1 : r.type ≠ "Mini GT Box Pack")
    (ht2 : r.type ≠ "Mini GT Blister Pack") :
    main_pm cfg previous current = ([], .error ()) := by
  obtain ⟨a, ha⟩ := hadd
  simp only [main_pm]
  rw [ha]
  rw [show group (removed_keys previous current) previous = .error () from
    group_error_of_bad_type _ _ k r (.ok ([], [])) hk hr ht1 ht2]

/-- Witness for `foreign_type_aborts_run`: a previous snapshot written by
productmonitor_telegram.py (type `"Box"`) makes a product_monitor.py run
abort with no actions performed. -/
theorem foreign_type_aborts_run_witness :
    main_pm ⟨true, true, false, false⟩
        [("https://u", ⟨"N", "Box", "https://u"⟩)] []
      = ([], .error ()) :=
  foreign_type_aborts_run ⟨true, true, false, false⟩
    [("https://u", ⟨"N", "Box", "https://u"⟩)] [] ⟨([], []), rfl⟩
    "https://u" ⟨"N", "Box", "https://u"⟩ (by decide) (by decide)
    (by decide) (by decide)

/-- `split` on the quote character never yields an empty part list. -/
theorem splitQuote_ne_nil (cs : List Char) : splitQuote cs ≠ [] := by
  cases cs with
  | nil => simp [splitQuote]
  | cons c rest =>
    simp only [splitQuote]
    rcases h : splitQuote rest with _ | ⟨h0, t⟩
    · simp
    · by_cases hc : c = squote <;> simp [hc]

/-- A string holding a single-quote splits into at least two parts, so
`split("'")[1]` does not raise. -/
theorem splitQuote_length_of_mem (cs : List Char) (h : squote ∈ cs) :
    2 ≤ (splitQuote cs).length := by
  induction cs with
  | nil => simp at h
  | cons c rest ih =>
    simp only [splitQuote]
    rcases hs : splitQuote rest with _ | ⟨h0, t⟩
    · exact absurd hs (splitQuote_ne_nil rest)
    · dsimp only
      by_cases hc : c = squote
      · rw [if_pos hc]
        simp
      · have hmem : squote ∈ rest := by
          rcases List.mem_cons.1 h with h1 | h1
          · exact absurd h1.symm hc
          · exact h1
        have h2 := ih hmem
        rw [hs] at h2
        rw [if_neg hc]
        simpa using h2

/-- The fallback strategy cannot raise on a card whose `onclick`, when it
mentions the redirect expression, holds a quoted argument. -/
theorem fallbackLink_isOk (card : Card)
    (h : ∀ oc, card.onclick = some oc →
      strContains oc "window.location.href" = true → squote ∈ oc.data) :
    ∃ ls, fallbackLink card = .ok ls := by
  unfold fallbackLink
  cases ho : card.onclick with
  | none => exact ⟨none, rfl⟩
  | some oc =>
    dsimp only
    by_cases hc : strContains oc "window.location.href" = true
    · have hq := h oc ho hc
      have hlen := splitQuote_length_of_mem oc.data hq
      rcases hs : splitQuote oc.data with _ | ⟨a, _ | ⟨b, l⟩⟩
      · exact absurd hs (splitQuote_ne_nil _)
      · rw [hs] at hlen
        simp at hlen
      · rw [if_pos hc]
        exact ⟨some ⟨b⟩, rfl⟩
    · rw [if_neg hc]
      exact ⟨none, rfl⟩

/-- A card whose `onclick` is well-formed in the above sense never makes
the extractor raise. -/
theorem extractCard_isOk (card : Card)
    (h : ∀ t, card.title = some t → ∀ oc, card.onclick = some oc →
      strContains oc "window.location.href" = true → squote ∈ oc.data) :
    ∃ r, extractCard card = .ok r := by
  simp only [extractCard]
  cases ht : card.title with
  | none => exact ⟨none, rfl⟩
  | some name =>
    cases hp : primaryLink card with
    | some l =>
      dsimp only
      repeat' split
      all_goals exact ⟨_, rfl⟩
    | none =>
      obtain ⟨ls, hls⟩ := fallbackLink_isOk card (h name ht)
      dsimp only
      rw [hls]
      cases ls with
      | none => exact ⟨none, rfl⟩
      | some l =>
        dsimp only
        repeat' split
        all_goals exact ⟨_, rfl⟩

/-- A page of well-formed cards never makes the extractor raise. -/
theorem extractCards_isOk (cards : List Card) :
    (∀ c ∈ cards, ∀ t, c.title = some t → ∀ oc, c.onclick = some oc →
        strContains oc "window.location.href" = true → squote ∈ oc.data) →
    ∃ items, extractCards cards = .ok items := by
  induction cards with
  | nil =>
    intro _
    exact ⟨[], rfl⟩
  | cons c rest ih =>
    intro hwf
    obtain ⟨r, hr⟩ := extractCard_isOk c (hwf c (by simp))
    obtain ⟨rs, hrs⟩ := ih fun c' hc' => hwf c' (by simp [hc'])
    simp only [extractCards]
    rw [hr, hrs]
    cases r with
    | none => exact ⟨rs, rfl⟩
    | some p => exact ⟨p :: rs, rfl⟩

/-- C5, counterexample: the Card Extractor can raise an error: a card
with a heading, no usable anchor, and an `onclick` that mentions the
redirect expression but contains no quoted URL argument makes
`onclick.split("'")[1]` raise `IndexError`, aborting the whole page. -/
theorem card_extractor_raises_counterexample :
    extractCards [⟨some "Product X", none, some "window.location.href=detail"⟩]
      = .error () := rfl

/-- C5, amended: the Card Extractor silently skips every card from
which no usable candidate can be derived — a missing heading always
contributes zero candidates without error, and a whole page parses without
error — provided that every card's `onclick` attribute, when it mentions
the redirect expression, also contains a quoted (single-quote delimited)
argument; an `onclick` mentioning the redirect expression with no
single-quote instead raises. -/
theorem card_extractor_skips_amended (cards : List Card)
    (hwf : ∀ c ∈ cards, ∀ t, c.title = some t → ∀ oc, c.onclick = some oc →
        strContains oc "window.location.href" = true → squote ∈ oc.data) :
    (∃ items, extractCards cards = .ok items) ∧
    (∀ h oc, extractCard ⟨none, h, oc⟩ = .ok none) := by
  constructor
  · exact extractCards_isOk cards hwf
  · intro h oc
    rfl

/-- Witness for `card_extractor_skips_amended`: a page with a heading-less
card, a primary-strategy card and a well-formed fallback card parses
without error, and the heading-less card (even with a malformed `onclick`)
is skipped. -/
theorem card_extractor_skips_amended_witness :
    (∃ items, extractCards
        [⟨none, none, some "window.location.href=bad"⟩,
         ⟨some "Car A", some "/product/mini-gt/car-a", none⟩,
         ⟨some "Car B", none, some "window.location.href='/product/mini-gt/car-b'"⟩]
      = .ok items) ∧
    extractCard ⟨none, some "/product/x", some "window.location.href=bad"⟩
      = .ok none := by
  have h := card_extractor_skips_amended
    [⟨none, none, some "window.location.href=bad"⟩,
     ⟨some "Car A", some "/product/mini-gt/car-a", none⟩,
     ⟨some "Car B", none, some "window.location.href='/product/mini-gt/car-b'"⟩]
    (by
      intro c hc
      simp only [List.mem_cons, List.not_mem_nil, or_false] at hc
      rcases hc with rfl | rfl | rfl
      · intro t ht
        exact absurd ht (by simp)
      · intro t ht oc hoc
        exact absurd hoc (by simp)
      · intro t ht oc hoc hcon
        injection hoc with h2
        subst h2
        decide)
  exact ⟨h.1, h.2 (some "/product/x") (some "window.location.href=bad")⟩

/-! ### Round-trip lemmas for the Snapshot Store -/

theorem nl_ws : nlChar.isWhitespace = true := by decide

theorem space_ws : (' ').isWhitespace = true := by decide

theorem dquote_not_ws : dquote.isWhitespace = false := by decide

theorem lbrace_not_ws : lbrace.isWhitespace = false := by decide

theorem rbrace_not_ws : rbrace.isWhitespace = false := by decide

theorem colon_not_ws : colonChar.isWhitespace = false := by decide

theorem comma_not_ws : commaChar.isWhitespace = false := by decide

theorem skipWs_cons_ws (c : Char) (cs : List Char) (h : c.isWhitespace = true) :
    skipWs (c :: cs) = skipWs cs := by
  simp [skipWs, List.dropWhile_cons, h]

theorem skipWs_cons_not (c : Char) (cs : List Char)
    (h : c.isWhitespace = false) : skipWs (c :: cs) = c :: cs := by
  simp [skipWs, List.dropWhile_cons, h]

theorem expectChar_ws (x c : Char) (cs : List Char)
    (h : c.isWhitespace = true) : expectChar x (c :: cs) = expectChar x cs := by
  unfold expectChar
  rw [skipWs_cons_ws c cs h]

theorem expectChar_self (x : Char) (hx : x.isWhitespace = false)
    (rest : List Char) : expectChar x (x :: rest) = some rest := by
  unfold expectChar
  rw [skipWs_cons_not x rest hx]
  simp

theorem parseQuoted_ws (c : Char) (cs : List Char)
    (h : c.isWhitespace = true) : parseQuoted (c :: cs) = parseQuoted cs := by
  unfold parseQuoted
  rw [expectChar_ws dquote c cs h]

theorem parseField_ws (key : String) (c : Char) (cs : List Char)
    (h : c.isWhitespace = true) :
    parseField key (c :: cs) = parseField key cs := by
  unfold parseField
  rw [parseQuoted_ws c cs h]

theorem parseRecord_ws (c : Char) (cs : List Char)
    (h : c.isWhitespace = true) : parseRecord (c :: cs) = parseRecord cs := by
  unfold parseRecord
  rw [expectChar_ws lbrace c cs h]

theorem parseStrBody_dq (rest : List Char) :
    parseStrBody (dquote :: rest) = some ([], rest) := by
  rw [parseStrBody.eq_def]
  simp

theorem parseStrBody_esc (e : Char) (he : e = dquote ∨ e = bslash)
    (tail : List Char) :
    parseStrBody (bslash :: e :: tail)
      = match parseStrBody tail with
        | some (s, r) => some (e :: s, r)
        | none => none := by
  rw [parseStrBody.eq_def]
  have h1 : ¬(bslash = dquote) := by decide
  simp [h1, he]

theorem parseStrBody_plain (c : Char) (h1 : ¬(c = dquote))
    (h2 : ¬(c = bslash)) (tail : List Char) :
    parseStrBody (c :: tail)
      = match parseStrBody tail with
        | some (s, r) => some (c :: s, r)
        | none => none := by
  rw [parseStrBody.eq_def]
  simp [h1, h2]

/-- Parsing undoes escaping: the body parser applied to an escaped string
followed by the closing quote returns the original characters. -/
theorem parseStrBody_escape (cs : List Char) :
    ∀ rest, parseStrBody ((cs.map escChar).flatten ++ dquote :: rest)
      = some (cs, rest) := by
  induction cs with
  | nil =>
    intro rest
    simpa using parseStrBody_dq rest
  | cons c cs ih =>
    intro rest
    simp only [List.map_cons, List.flatten_cons, List.append_assoc]
    by_cases h1 : c = dquote
    · subst h1
      rw [show escChar dquote = [bslash, dquote] from by simp [escChar]]
      simp only [List.cons_append, List.nil_append]
      rw [parseStrBody_esc dquote (Or.inl rfl), ih rest]
    · by_cases h2 : c = bslash
      · subst h2
        rw [show escChar bslash = [bslash, bslash] from by
          simp [escChar, (by decide : ¬(bslash = dquote))]]
        simp only [List.cons_append, List.nil_append]
        rw [parseStrBody_esc bslash (Or.inr rfl), ih rest]
      · rw [show escChar c = [c] from by simp [escChar, h1, h2]]
        simp only [List.cons_append, List.nil_append]
        rw [parseStrBody_plain c h1 h2, ih rest]

/-- Parsing a rendered string literal. -/
theorem parseQuoted_render0 (s : String) (rest : List Char) :
    parseQuoted (renderStr s ++ rest) = some (s.data, rest) := by
  unfold parseQuoted
  have h1 : renderStr s ++ rest
      = dquote :: ((s.data.map escChar).flatten ++ dquote :: rest) := by
    simp [renderStr]
  rw [h1, expectChar_self dquote dquote_not_ws]
  exact parseStrBody_escape s.data rest

/-- Parsing a rendered string literal after leading whitespace. -/
theorem parseQuoted_render (w : List Char) :
    (∀ c ∈ w, c.isWhitespace = true) → ∀ (s : String) (rest : List Char),
    parseQuoted (w ++ (renderStr s ++ rest)) = some (s.data, rest) := by
  induction w with
  | nil =>
    intro _ s rest
    simpa using parseQuoted_render0 s rest
  | cons c w ih =>
    intro hw s rest
    rw [List.cons_append, parseQuoted_ws c _ (hw c (by simp))]
    exact ih (fun d hd => hw d (by simp [hd])) s rest

/-- Parsing a rendered `"key": "value"` member. -/
theorem parseField_render0 (key v : String) (rest : List Char) :
    parseField key (renderField key v ++ rest) = some (v, rest) := by
  unfold parseField
  have h1 : renderField key v ++ rest
      = renderStr key ++ (colonChar :: ' ' :: (renderStr v ++ rest)) := by
    simp [renderField]
  rw [h1]
  rw [show renderStr key ++ (colonChar :: ' ' :: (renderStr v ++ rest))
      = [] ++ (renderStr key ++ (colonChar :: ' ' :: (renderStr v ++ rest))) from rfl]
  rw [parseQuoted_render [] (by simp) key _]
  dsimp only
  rw [if_pos rfl, expectChar_self colonChar colon_not_ws]
  dsimp only
  rw [parseQuoted_ws ' ' _ space_ws, parseQuoted_render0 v rest]

/-- Parsing a rendered record object. -/
theorem parseRecord_render0 (r : Record) (rest : List Char) :
    parseRecord (renderRecord r ++ rest) = some (r, rest) := by
  unfold parseRecord
  have h1 : renderRecord r ++ rest
      = lbrace :: nlChar :: ' ' :: ' ' :: ' ' :: ' ' ::
        (renderField "name" r.name ++ (commaChar :: nlChar :: ' ' :: ' ' :: ' ' :: ' ' ::
          (renderField "type" r.type ++ (commaChar :: nlChar :: ' ' :: ' ' :: ' ' :: ' ' ::
            (renderField "url" r.url ++ (nlChar :: ' ' :: ' ' :: rbrace :: rest)))))) := by
    simp [renderRecord, ws2, ws4]
  rw [h1, expectChar_self lbrace lbrace_not_ws]
  dsimp only
  rw [parseField_ws _ _ _ nl_ws, parseField_ws _ _ _ space_ws,
    parseField_ws _ _ _ space_ws, parseField_ws _ _ _ space_ws,
    parseField_ws _ _ _ space_ws, parseField_render0 "name" r.name]
  dsimp only
  rw [expectChar_self commaChar comma_not_ws]
  dsimp only
  rw [parseField_ws _ _ _ nl_ws, parseField_ws _ _ _ space_ws,
    parseField_ws _ _ _ space_ws, parseField_ws _ _ _ space_ws,
    parseField_ws _ _ _ space_ws, parseField_render0 "type" r.type]
  dsimp only
  rw [expectChar_self commaChar comma_not_ws]
  dsimp only
  rw [parseField_ws _ _ _ nl_ws, parseField_ws _ _ _ space_ws,
    parseField_ws _ _ _ space_ws, parseField_ws _ _ _ space_ws,
    parseField_ws _ _ _ space_ws, parseField_render0 "url" r.url]
  dsimp only
  rw [expectChar_ws _ _ _ nl_ws, expectChar_ws _ _ _ space_ws,
    expectChar_ws _ _ _ space_ws, expectChar_self rbrace rbrace_not_ws]

/-- Parsing the rendered sequence of top-level entries up to and including
the closing brace. -/
theorem parseEntries_render (snap : Snapshot) :
    ∀ fuel, snap ≠ [] → snap.length ≤ fuel →
    ∀ w, (∀ c ∈ w, c.isWhitespace = true) →
    parseEntries fuel (w ++ (renderEntries snap ++ [nlChar, rbrace]))
      = some (snap, []) := by
  induction snap with
  | nil =>
    intro fuel h
    exact absurd rfl h
  | cons e rest ih =>
    intro fuel _ hf w hw
    have hf' : rest.length + 1 ≤ fuel := by simpa using hf
    obtain ⟨f, rfl⟩ : ∃ f, fuel = f + 1 := ⟨fuel - 1, by omega⟩
    simp only [parseEntries]
    cases rest with
    | nil =>
      have h1 : renderEntries [e] ++ [nlChar, rbrace]
          = renderStr e.1 ++ (colonChar :: ' ' ::
            (renderRecord e.2 ++ [nlChar, rbrace])) := by
        simp [renderEntries, renderEntry]
      rw [h1, parseQuoted_render w hw e.1 _]
      dsimp only
      rw [expectChar_self colonChar colon_not_ws]
      dsimp only
      rw [parseRecord_ws _ _ space_ws, parseRecord_render0 e.2]
      dsimp only
      rw [skipWs_cons_ws _ _ nl_ws, skipWs_cons_not _ _ rbrace_not_ws]
      dsimp only
      rw [if_neg (by decide : ¬(rbrace = commaChar)), if_pos rfl]
    | cons e2 rest2 =>
      have h1 : renderEntries (e :: e2 :: rest2) ++ [nlChar, rbrace]
          = renderStr e.1 ++ (colonChar :: ' ' :: (renderRecord e.2 ++
            (commaChar :: nlChar :: ' ' :: ' ' ::
              (renderEntries (e2 :: rest2) ++ [nlChar, rbrace])))) := by
        simp [renderEntries, renderEntry, ws2]
      rw [h1, parseQuoted_render w hw e.1 _]
      dsimp only
      rw [expectChar_self colonChar colon_not_ws]
      dsimp only
      rw [parseRecord_ws _ _ space_ws, parseRecord_render0 e.2]
      dsimp only
      rw [skipWs_cons_not _ _ comma_not_ws]
      dsimp only
      rw [if_pos rfl]
      rw [show nlChar :: ' ' :: ' ' :: (renderEntries (e2 :: rest2) ++ [nlChar, rbrace])
          = [nlChar, ' ', ' '] ++ (renderEntries (e2 :: rest2) ++ [nlChar, rbrace]) from rfl]
      rw [ih f (by simp) (by simp only [List.length_cons] at hf' ⊢; omega)
        [nlChar, ' ', ' '] (by decide)]

/-- Each rendered entry takes at least one character, so the fuel derived
from the file length suffices. -/
theorem renderEntries_length (snap : Snapshot) :
    snap.length ≤ (renderEntries snap).length := by
  induction snap with
  | nil => simp [renderEntries]
  | cons e rest ih =>
    cases rest with
    | nil =>
      simp [renderEntries, renderEntry, renderStr, List.length_append]
    | cons e2 rest2 =>
      simp only [renderEntries, List.length_cons, List.length_append, ws2] at ih ⊢
      omega

/-- A rendered non-empty entry sequence starts with a double quote. -/
theorem renderEntries_append_cons (e : String × Record) (rest : Snapshot)
    (tail : List Char) :
    ∃ z, renderEntries (e :: rest) ++ tail = dquote :: z := by
  cases rest with
  | nil =>
    refine ⟨(e.1.data.map escChar).flatten ++ (dquote ::
      ([colonChar, ' '] ++ (renderRecord e.2 ++ tail))), ?_⟩
    simp [renderEntries, renderEntry, renderStr]
  | cons e2 rest2 =>
    refine ⟨(e.1.data.map escChar).flatten ++ (dquote ::
      ([colonChar, ' '] ++ (renderRecord e.2 ++ (commaChar :: nlChar :: ' ' :: ' ' ::
        (renderEntries (e2 :: rest2) ++ tail))))), ?_⟩
    simp [renderEntries, renderEntry, renderStr, ws2]

/-- C8: snapshot persistence round-trips: parsing the exact text
`save_products` writes (the `json.dump(..., indent=2)` format) reproduces
the snapshot, for every snapshot. -/
theorem snapshot_roundtrip (snap : Snapshot) :
    load_products (save_products snap) = some snap := by
  cases snap with
  | nil => decide
  | cons e rest =>
    unfold load_products save_products
    dsimp only
    have h1 : ([lbrace] ++ ws2 ++ renderEntries (e :: rest) ++ [nlChar, rbrace] : List Char)
        = lbrace :: nlChar :: ' ' :: ' ' ::
          (renderEntries (e :: rest) ++ [nlChar, rbrace]) := by
      simp [ws2]
    rw [h1, expectChar_self lbrace lbrace_not_ws]
    dsimp only
    rw [skipWs_cons_ws _ _ nl_ws, skipWs_cons_ws _ _ space_ws,
      skipWs_cons_ws _ _ space_ws]
    obtain ⟨z, hz⟩ := renderEntries_append_cons e rest [nlChar, rbrace]
    rw [hz, skipWs_cons_not _ _ dquote_not_ws]
    dsimp only
    rw [if_neg (by decide : ¬(dquote = rbrace))]
    rw [← hz]
    rw [show renderEntries (e :: rest) ++ [nlChar, rbrace]
        = [] ++ (renderEntries (e :: rest) ++ [nlChar, rbrace]) from rfl]
    rw [parseEntries_render (e :: rest) _ (by simp) ?_ [] (by simp)]
    · rfl
    · have hlen := renderEntries_length (e :: rest)
      simp only [List.length_cons, List.length_append, List.length_nil, ws2,
        List.length_cons] at hlen ⊢
      omega

end ProductMonitor
